import Mathlib

/-!
# Verification of the Telegram chat-statistics analytics pipeline

Shallow embedding of `src/chat_statistics/stats.py` (class `ChatStatistics`).

Modelling conventions:

* A Telegram message dictionary becomes the `Message` structure. `from_id`
  models the `from_id` entry: `none` stands for an absent key (or a JSON
  null), since both make every plain `msg['from_id']`-then-index chain fail
  in the same way; a present falsy id is modelled by the empty string.
  `from_name` models the `from` entry (`none` = JSON null); as in every
  Telegram export, `from` is taken to be present whenever `from_id` is.
* The polymorphic `text` field (string, or list of strings and span
  dictionaries) becomes the `TextPayload` / `TextItem` unions.
* Python dictionaries become association lists with Python's semantics:
  assignment to an existing key overwrites in place, a new key is appended
  (`dictInsert`); lookup by `[]` that can fail is modelled in
  `Except String` with error "KeyError"; `.get` is `dictGet`.
* `collections.Counter` keeps first-occurrence insertion order
  (`counterItems`); `most_common(n)` is a stable descending sort by count
  followed by truncation (`n ≤ 0` truncates to nothing, as in CPython).
* The external hazm capabilities `sent_tokenize` / `word_tokenize` are
  black boxes, passed as function parameters (`split`, `tok`).
* Functions that can raise are embedded in `Except String`; the string
  names the Python exception class that would be raised.
* Reading an unassigned local (`top_users` when the aggregation loop never
  assigned it) raises; modelled by the error "UnboundLocalError".
-/

namespace ChatStats

/-- One run of a rich-text message payload: a plain string, or an annotated
span dictionary `{'type': ..., 'text': ...}`. -/
inductive TextItem where
  | str (s : String)
  | span (type : String) (text : String)
deriving DecidableEq

/-- The polymorphic `msg['text']` field: a plain string or a list of runs. -/
inductive TextPayload where
  | str (s : String)
  | list (items : List TextItem)
deriving DecidableEq

/-- A message of the transcript (the fields `stats.py` reads). -/
structure Message where
  id : Int
  from_id : Option String
  from_name : Option String
  reply_to_message_id : Option Int
  text : TextPayload
deriving DecidableEq

/-- Does `needle` occur at the head of `hay`? (helper for substring tests) -/
def matchesAt : List Char → List Char → Bool
  | [], _ => true
  | _ :: _, [] => false
  | a :: as, b :: bs => a == b && matchesAt as bs

/-- Does `needle` occur anywhere in `hay`? (helper for substring tests) -/
def subIn (needle : List Char) : List Char → Bool
  | [] => needle.isEmpty
  | b :: t => matchesAt needle (b :: t) || subIn needle t

/-- Python's `pat in s` substring test on strings. -/
def hasSub (s pat : String) : Bool := subIn pat.toList s.toList

/-- `ChatStatistics.rebuild_msg`: flatten a list-typed text payload.
`res_msg` starts as `''` and every item is appended via
`' '.join([res_msg, item])`, i.e. `res_msg ++ " " ++ item`; annotated spans
contribute their `'text'` entry whatever their `'type'`. -/
def rebuild_msg (items : List TextItem) : String :=
  items.foldl (fun res it =>
    match it with
    | TextItem.str s => res ++ " " ++ s
    | TextItem.span _ t => res ++ " " ++ t) ""

/-- The flat string a message's text denotes (after `rebuild_msg` if the
payload is a list). -/
def flatStr (m : Message) : String :=
  match m.text with
  | TextPayload.str s => s
  | TextPayload.list items => rebuild_msg items

/-- The in-place mutation `msg['text'] = self.rebuild_msg(msg)` performed on
messages whose text is not a string; string-typed messages are untouched. -/
def pyFlatten (m : Message) : Message :=
  match m.text with
  | TextPayload.str _ => m
  | TextPayload.list items => { m with text := TextPayload.str (rebuild_msg items) }

/-- A sentence contains one of the four fixed question markers:
literal `?`, the Arabic/Persian question mark, or the two Persian
interrogative words. -/
def isQSentence (s : String) : Bool :=
  hasSub s "?" || hasSub s "؟" || hasSub s "چرا" || hasSub s "آیا"

/-- The sentence loop of `msg_has_question` / the classification pass:
skip sentences with none of the four markers, return `True` at the first
match, fall through (falsy `None`, modelled `false`) otherwise. -/
def questionFound : List String → Bool
  | [] => false
  | s :: rest =>
    if !(hasSub s "?") && !(hasSub s "؟") && !(hasSub s "چرا") && !(hasSub s "آیا") then
      questionFound rest
    else true

/-- `ChatStatistics.msg_has_question`: flattens (mutating) the message, then
scans its sentences. Returns the truthiness of the result together with the
message as left behind by the mutation. `split` is hazm's `sent_tokenize`. -/
def msg_has_question (split : String → List String) (msg : Message) : Bool × Message :=
  let msg2 := pyFlatten msg
  (questionFound (split (flatStr msg2)), msg2)

/-- Python-dict assignment on an association list: overwrite in place if the
key exists, append otherwise. -/
def dictInsert {α β : Type} [BEq α] (d : List (α × β)) (k : α) (v : β) : List (α × β) :=
  if d.any (fun p => p.1 == k) then
    d.map (fun p => if p.1 == k then (k, v) else p)
  else d ++ [(k, v)]

/-- Python's `dict.get`: `none` when the key is absent. -/
def dictGet {α β : Type} [BEq α] (d : List (α × β)) (k : α) : Option β :=
  (d.find? (fun p => p.1 == k)).map (fun p => p.2)

/-- A dict built from a list of key/value pairs in order (dict comprehension
semantics: first-occurrence position, last-assignment value). -/
def pyDict {α β : Type} [BEq α] (l : List (α × β)) : List (α × β) :=
  l.foldl (fun d p => dictInsert d p.1 p.2) []

/-- Truthiness of `msg.get('from_id')` (absent or empty id is falsy). -/
def truthyId : Option String → Bool
  | none => false
  | some s => !(s == "")

/-- Truthiness of `msg.get('reply_to_message_id')`. -/
def truthyReply : Option Int → Bool
  | none => false
  | some i => !(i == 0)

/-- `ChatStatistics.id_and_name`: the sender directory, skipping messages
with a falsy `from_id` and keeping the last seen `from` value per id. -/
def id_and_name (msgs : List Message) : List (String × Option String) :=
  msgs.foldl (fun d m =>
    match m.from_id with
    | none => d
    | some fid => if fid == "" then d else dictInsert d fid m.from_name) []

/-- The classification pass at the top of `get_top_answering_users`:
flattens every message in place and records in `is_question` (a
`defaultdict(bool)`, modelled by the list of ids mapped to `True`) the ids
of messages with a question sentence. -/
def classifyLoop (split : String → List String) :
    List Message → List Int → List Message × List Int
  | [], qids => ([], qids)
  | m :: rest, qids =>
    let m2 := pyFlatten m
    let qids2 := if questionFound (split (flatStr m2)) then qids ++ [m2.id] else qids
    let r := classifyLoop split rest qids2
    (m2 :: r.1, r.2)

/-- The answer-aggregation loop of `get_top_answering_users`: builds the
`users` list of sender ids of messages that reply to a question. Note the
source indexes `user_names[msg['from_id']]` with plain brackets, so an
absent `from_id` key, or an id that is no key of the directory, raises
`KeyError`. -/
def answerUsers (qids : List Int) (names : List (String × Option String)) :
    List Message → Except String (List String)
  | [] => Except.ok []
  | m :: rest =>
    if !(truthyReply m.reply_to_message_id) then answerUsers qids names rest
    else if !(qids.contains (m.reply_to_message_id.getD 0)) then answerUsers qids names rest
    else
      match m.from_id with
      | none => Except.error "KeyError"
      | some fid =>
        match dictGet names fid with
        | none => Except.error "KeyError"
        | some none => answerUsers qids names rest
        | some (some _) =>
          match answerUsers qids names rest with
          | Except.error e => Except.error e
          | Except.ok us => Except.ok (fid :: us)

/-- The counting loop of `get_most_talkative_users`: keeps the sender ids of
messages whose `user_names.get(msg.get('from_id'))` is not `None`. -/
def talkUsers (names : List (String × Option String)) : List Message → List String
  | [] => []
  | m :: rest =>
    match m.from_id with
    | none => talkUsers names rest
    | some fid =>
      match dictGet names fid with
      | some (some _) => fid :: talkUsers names rest
      | _ => talkUsers names rest

/-- One `Counter` update: bump the count of a seen id in place, append a
fresh id with count 1. -/
def counterStep (items : List (String × Nat)) (u : String) : List (String × Nat) :=
  if items.any (fun p => p.1 == u) then
    items.map (fun p => if p.1 == u then (p.1, p.2 + 1) else p)
  else items ++ [(u, 1)]

/-- `collections.Counter(users)`: per-id counts in first-occurrence order. -/
def counterItems (users : List String) : List (String × Nat) :=
  users.foldl counterStep []

/-- Stable insertion into a count-descending list: the new pair goes before
the first entry with a count `≤` its own, hence after every earlier-ranked
tie. -/
def insertDesc (p : String × Nat) : List (String × Nat) → List (String × Nat)
  | [] => [p]
  | q :: t => if q.2 ≤ p.2 then p :: q :: t else q :: insertDesc p t

/-- Stable sort by count descending (CPython's `sorted(..., reverse=True)` /
`heapq.nlargest` ordering used by `Counter.most_common`). -/
def sortDesc : List (String × Nat) → List (String × Nat)
  | [] => []
  | p :: rest => insertDesc p (sortDesc rest)

/-- `Counter(users).most_common(n)`: stable descending sort, truncated to
`n` entries (`n ≤ 0` yields none, as in CPython). -/
def most_common (items : List (String × Nat)) (n : Int) : List (String × Nat) :=
  (sortDesc items).take n.toNat

/-- The lookups of the final comprehension
`{user_names[k]: v for k, v in top_users.items()}`: plain indexing, so a
missing key raises `KeyError`. -/
def resolveNames (names : List (String × Option String)) :
    List (String × Nat) → Except String (List (Option String × Nat))
  | [] => Except.ok []
  | p :: rest =>
    match dictGet names p.1 with
    | none => Except.error "KeyError"
    | some nm =>
      match resolveNames names rest with
      | Except.error e => Except.error e
      | Except.ok r => Except.ok ((nm, p.2) :: r)

/-- The final display-name dictionary of both ranking functions. -/
def fTopUsers (names : List (String × Option String)) (tu : List (String × Nat)) :
    Except String (List (Option String × Nat)) :=
  (resolveNames names tu).map pyDict

/-- `ChatStatistics.get_top_answering_users`. `top_users` is assigned only
inside the loop body, so when no message qualifies the closing
comprehension reads an unassigned local and raises `UnboundLocalError`. -/
def get_top_answering_users (split : String → List String) (msgs : List Message)
    (top_n : Int) : Except String (List (Option String × Nat)) :=
  let c := classifyLoop split msgs []
  let names := id_and_name c.1
  match answerUsers c.2 names c.1 with
  | Except.error e => Except.error e
  | Except.ok users =>
    if users.isEmpty then Except.error "UnboundLocalError"
    else fTopUsers names (most_common (counterItems users) top_n)

/-- `ChatStatistics.get_most_talkative_users` (same `top_users` caveat). -/
def get_most_talkative_users (msgs : List Message) (top_n : Int) :
    Except String (List (Option String × Nat)) :=
  let names := id_and_name msgs
  let users := talkUsers names msgs
  if users.isEmpty then Except.error "UnboundLocalError"
  else fTopUsers names (most_common (counterItems users) top_n)

/-- The span types `generate_word_cloud` drops from the corpus. -/
def wcDropTypes : List String := ["link", "hashtag", "mention", "phone", "email"]

/-- One `text_content += f"\x7bnewline\x7d \x7b' '.join(tokens)\x7d"` step of
`generate_word_cloud`: tokenize, filter the stopwords out, join back.
`tok` is hazm's `word_tokenize`. -/
def corpusPiece (tok : String → List String) (stop : List String) (s : String) : String :=
  "\n " ++ String.intercalate " " ((tok s).filter (fun t => !(stop.contains t)))

/-- The corpus-accumulation loop of `generate_word_cloud`: string payloads
and string runs contribute their filtered tokens; spans of a dropped type
are skipped wholesale; other spans contribute their text's filtered
tokens. -/
def buildCorpus (tok : String → List String) (stop : List String)
    (msgs : List Message) : String :=
  msgs.foldl (fun acc m =>
    match m.text with
    | TextPayload.str s => acc ++ corpusPiece tok stop s
    | TextPayload.list items =>
      items.foldl (fun acc2 it =>
        match it with
        | TextItem.str s => acc2 ++ corpusPiece tok stop s
        | TextItem.span ty t =>
          if wcDropTypes.contains ty then acc2 else acc2 ++ corpusPiece tok stop t) acc) ""

/-- The text of a single run, whatever its shape. -/
def itemText : TextItem → String
  | TextItem.str s => s
  | TextItem.span _ t => t

/-- A degenerate sentence splitter / tokenizer for concrete test inputs. -/
def split0 : String → List String := fun s => [s]

/-- A question message from sender `u1`. -/
def qmsg : Message := ⟨1, some "u1", some "Ali", none, TextPayload.str "hi?"⟩

/-- A reply to the question `qmsg` whose `from_id` key is absent. -/
def replyNoSender : Message := ⟨2, none, none, some 1, TextPayload.str "ok"⟩

/-- Ordinary messages from three distinct senders; `mDangle` replies to the
nonexistent message id 999. -/
def mA : Message := ⟨1, some "u1", some "A", none, TextPayload.str "x"⟩

/-- Second ordinary message (sender `u2`, name `B`). -/
def mB : Message := ⟨2, some "u2", some "B", none, TextPayload.str "y"⟩

/-- A message from sender `u3` replying to the nonexistent id 999. -/
def mDangle : Message := ⟨3, some "u3", some "C", some 999, TextPayload.str "z"⟩

/-- A message whose entire text is the single token "foo". -/
def stopMsg : Message := ⟨1, some "u1", some "Ali", none, TextPayload.str "foo"⟩

/-- A message with a run-list text payload. -/
def m0 : Message := ⟨1, some "u1", some "Ali", none, TextPayload.list [TextItem.str "hi"]⟩

/- ### General lemmas about the embedded operations -/

theorem flatStr_pyFlatten (m : Message) : flatStr (pyFlatten m) = flatStr m := by
  cases m with
  | mk i f fn r t => cases t <;> rfl

theorem id_pyFlatten (m : Message) : (pyFlatten m).id = m.id := by
  cases m with
  | mk i f fn r t => cases t <;> rfl

theorem from_id_pyFlatten (m : Message) : (pyFlatten m).from_id = m.from_id := by
  cases m with
  | mk i f fn r t => cases t <;> rfl

theorem reply_pyFlatten (m : Message) :
    (pyFlatten m).reply_to_message_id = m.reply_to_message_id := by
  cases m with
  | mk i f fn r t => cases t <;> rfl

theorem questionFound_cons (s : String) (rest : List String) :
    questionFound (s :: rest) = (isQSentence s || questionFound rest) := by
  show (if !(hasSub s "?") && !(hasSub s "؟") && !(hasSub s "چرا") && !(hasSub s "آیا") then
      questionFound rest else true) = _
  cases h1 : hasSub s "?" <;> cases h2 : hasSub s "؟" <;>
    cases h3 : hasSub s "چرا" <;> cases h4 : hasSub s "آیا" <;>
    simp [isQSentence, h1, h2, h3, h4]

theorem questionFound_iff (l : List String) :
    questionFound l = true ↔ ∃ s ∈ l, isQSentence s = true := by
  induction l with
  | nil => simp [questionFound]
  | cons s rest ih => rw [questionFound_cons]; simp [ih]

theorem classifyLoop_fst (split : String → List String) (msgs : List Message)
    (qids : List Int) : (classifyLoop split msgs qids).1 = msgs.map pyFlatten := by
  induction msgs generalizing qids with
  | nil => rfl
  | cons m rest ih => simp [classifyLoop, ih]

/- ### Lemmas about the stable descending sort -/

theorem insertDesc_perm (p : String × Nat) (l : List (String × Nat)) :
    List.Perm (insertDesc p l) (p :: l) := by
  induction l with
  | nil => exact List.Perm.refl _
  | cons q t ih =>
    show List.Perm (if q.2 ≤ p.2 then p :: q :: t else q :: insertDesc p t) _
    by_cases h : q.2 ≤ p.2
    · rw [if_pos h]
    · rw [if_neg h]
      exact (ih.cons q).trans (List.Perm.swap p q t)

theorem sortDesc_perm (l : List (String × Nat)) : List.Perm (sortDesc l) l := by
  induction l with
  | nil => exact List.Perm.refl _
  | cons p t ih =>
    show List.Perm (insertDesc p (sortDesc t)) _
    exact (insertDesc_perm p (sortDesc t)).trans (ih.cons p)

theorem insertDesc_pairwise (p : String × Nat) (l : List (String × Nat))
    (h : l.Pairwise (fun a b => b.2 ≤ a.2)) :
    (insertDesc p l).Pairwise (fun a b => b.2 ≤ a.2) := by
  induction l with
  | nil => simp [insertDesc]
  | cons q t ih =>
    rw [List.pairwise_cons] at h
    show (if q.2 ≤ p.2 then p :: q :: t else q :: insertDesc p t).Pairwise _
    by_cases hq : q.2 ≤ p.2
    · rw [if_pos hq]
      refine List.Pairwise.cons ?_ (List.pairwise_cons.mpr h)
      intro b hb
      rcases List.mem_cons.mp hb with hb | hb
      · exact hb ▸ hq
      · exact le_trans (h.1 b hb) hq
    · rw [if_neg hq]
      refine List.Pairwise.cons ?_ (ih h.2)
      intro b hb
      rcases List.mem_cons.mp ((insertDesc_perm p t).mem_iff.mp hb) with hb | hb
      · exact hb ▸ le_of_not_le hq
      · exact h.1 b hb

theorem sortDesc_pairwise (l : List (String × Nat)) :
    (sortDesc l).Pairwise (fun a b => b.2 ≤ a.2) := by
  induction l with
  | nil => exact List.Pairwise.nil
  | cons p t ih => exact insertDesc_pairwise p (sortDesc t) ih

theorem insertDesc_filter (p : String × Nat) (c : Nat) (l : List (String × Nat)) :
    (insertDesc p l).filter (fun q => q.2 == c)
      = if p.2 == c then p :: l.filter (fun q => q.2 == c)
        else l.filter (fun q => q.2 == c) := by
  induction l with
  | nil =>
    show List.filter (fun q => q.2 == c) [p] = _
    rw [List.filter_cons, List.filter_nil]
  | cons q t ih =>
    show (if q.2 ≤ p.2 then p :: q :: t else q :: insertDesc p t).filter _ = _
    by_cases hq : q.2 ≤ p.2
    · rw [if_pos hq, List.filter_cons]
    · rw [if_neg hq]
      by_cases hc : p.2 = c
      · have hq2 : ¬ q.2 = c := by omega
        simp [List.filter_cons, ih, hc, hq2]
      · simp [List.filter_cons, ih, hc]

/-- Stability of the descending sort: the entries carrying one fixed count
keep exactly their original relative order. -/
theorem sortDesc_filter (c : Nat) (l : List (String × Nat)) :
    (sortDesc l).filter (fun q => q.2 == c) = l.filter (fun q => q.2 == c) := by
  induction l with
  | nil => rfl
  | cons p t ih =>
    show (insertDesc p (sortDesc t)).filter _ = _
    rw [insertDesc_filter, ih, List.filter_cons]

/- ### Lemmas about the Counter fold -/

theorem counterStep_keys_bump (items : List (String × Nat)) (u : String)
    (h : items.any (fun p => p.1 == u) = true) :
    (counterStep items u).map Prod.fst = items.map Prod.fst := by
  rw [counterStep, if_pos h, List.map_map]
  refine List.map_congr_left ?_
  intro p _
  by_cases hp : p.1 = u <;> simp [Function.comp, hp]

theorem counterFold_keys_nodup (users : List String) (d : List (String × Nat))
    (hd : (d.map Prod.fst).Nodup) :
    ((users.foldl counterStep d).map Prod.fst).Nodup := by
  induction users generalizing d with
  | nil => exact hd
  | cons u rest ih =>
    show ((rest.foldl counterStep (counterStep d u)).map Prod.fst).Nodup
    apply ih
    by_cases h : d.any (fun p => p.1 == u) = true
    · rw [counterStep_keys_bump d u h]; exact hd
    · rw [counterStep, if_neg h, List.map_append]
      rw [List.nodup_append]
      refine ⟨hd, List.nodup_singleton u, ?_⟩
      intro k hk hk2
      rcases List.mem_singleton.mp hk2 with rfl
      rcases List.mem_map.mp hk with ⟨p, hp, hpk⟩
      exact h (List.any_eq_true.mpr ⟨p, hp, by simp [hpk]⟩)

theorem counterFold_keys_subset (users : List String) (d : List (String × Nat)) :
    ∀ k ∈ (users.foldl counterStep d).map Prod.fst, k ∈ d.map Prod.fst ∨ k ∈ users := by
  induction users generalizing d with
  | nil => intro k hk; exact Or.inl hk
  | cons u rest ih =>
    intro k hk
    rcases ih (counterStep d u) k hk with hk2 | hk2
    · by_cases h : d.any (fun p => p.1 == u) = true
      · rw [counterStep_keys_bump d u h] at hk2
        exact Or.inl hk2
      · rw [counterStep, if_neg h, List.map_append] at hk2
        rcases List.mem_append.mp hk2 with hk3 | hk3
        · exact Or.inl hk3
        · have hk4 : k = u := List.mem_singleton.mp hk3
          subst hk4
          exact Or.inr (List.mem_cons_self k rest)
    · exact Or.inr (List.mem_cons_of_mem u hk2)

/- ### Lemmas about the Python-dict model -/

theorem dictInsert_fresh {α β : Type} [BEq α] (d : List (α × β)) (k : α) (v : β)
    (h : ¬ d.any (fun p => p.1 == k) = true) :
    dictInsert d k v = d ++ [(k, v)] := by
  rw [dictInsert, if_neg h]

theorem pyDictFold_fresh {α β : Type} [BEq α] [LawfulBEq α]
    (l : List (α × β)) (d : List (α × β))
    (h : ((d ++ l).map Prod.fst).Nodup) :
    l.foldl (fun d p => dictInsert d p.1 p.2) d = d ++ l := by
  induction l generalizing d with
  | nil => simp
  | cons p rest ih =>
    have hk : ¬ d.any (fun q => q.1 == p.1) = true := by
      intro hc
      rcases List.any_eq_true.mp hc with ⟨q, hq, hq2⟩
      have hq3 : q.1 = p.1 := by simpa using hq2
      rw [List.map_append, List.nodup_append] at h
      exact h.2.2 (List.mem_map.mpr ⟨q, hq, hq3⟩) (by simp)
    show List.foldl _ (dictInsert d p.1 p.2) rest = _
    rw [dictInsert_fresh d p.1 p.2 hk]
    have h2 : (((d ++ [(p.1, p.2)]) ++ rest).map Prod.fst).Nodup := by
      rw [List.append_assoc, List.singleton_append, Prod.mk.eta]
      exact h
    rw [ih (d ++ [(p.1, p.2)]) h2, List.append_assoc, List.singleton_append, Prod.mk.eta]

/-- A dict built from pairs with pairwise-distinct keys is those pairs. -/
theorem pyDict_nodup {α β : Type} [BEq α] [LawfulBEq α] (l : List (α × β))
    (h : (l.map Prod.fst).Nodup) : pyDict l = l := by
  have := pyDictFold_fresh l [] (by simpa using h)
  simpa [pyDict] using this

theorem resolveNames_ok (names : List (String × Option String)) (tu : List (String × Nat))
    (h : ∀ p ∈ tu, (dictGet names p.1).isSome = true) :
    resolveNames names tu
      = Except.ok (tu.map (fun p => ((dictGet names p.1).getD none, p.2))) := by
  induction tu with
  | nil => rfl
  | cons p rest ih =>
    obtain ⟨nm, hnm⟩ := Option.isSome_iff_exists.mp (h p (List.mem_cons_self p rest))
    show (match dictGet names p.1 with
      | none => Except.error "KeyError"
      | some nm =>
        match resolveNames names rest with
        | Except.error e => Except.error e
        | Except.ok r => Except.ok ((nm, p.2) :: r)) = _
    rw [hnm, ih (fun q hq => h q (List.mem_cons_of_mem p hq))]
    simp [hnm]

theorem dictInsert_overwrite {α β : Type} [BEq α] [LawfulBEq α]
    (a b : List (α × β)) (k : α) (vOld vNew : β)
    (ha : ¬ k ∈ a.map Prod.fst) (hb : ¬ k ∈ b.map Prod.fst) :
    dictInsert (a ++ (k, vOld) :: b) k vNew = a ++ (k, vNew) :: b := by
  have hany : (a ++ (k, vOld) :: b).any (fun p => p.1 == k) = true :=
    List.any_eq_true.mpr ⟨(k, vOld), by simp, by simp⟩
  rw [dictInsert, if_pos hany, List.map_append, List.map_cons]
  have hfa : ∀ p ∈ a, (if p.1 == k then (k, vNew) else p) = p := by
    intro p hp
    have : ¬ p.1 = k := fun he => ha (List.mem_map.mpr ⟨p, hp, he⟩)
    simp [this]
  have hfb : ∀ p ∈ b, (if p.1 == k then (k, vNew) else p) = p := by
    intro p hp
    have : ¬ p.1 = k := fun he => hb (List.mem_map.mpr ⟨p, hp, he⟩)
    simp [this]
  rw [List.map_congr_left hfa |>.trans (List.map_id a),
    List.map_congr_left hfb |>.trans (List.map_id b)]
  simp

theorem dictGet_mid {α β : Type} [BEq α] [LawfulBEq α]
    (a b : List (α × β)) (k : α) (v : β) (ha : ¬ k ∈ a.map Prod.fst) :
    dictGet (a ++ (k, v) :: b) k = some v := by
  induction a with
  | nil => simp [dictGet, List.find?_cons]
  | cons q t ih =>
    have hq : ¬ q.1 = k := fun he => ha (by simp [he])
    have ht : ¬ k ∈ t.map Prod.fst := fun he => ha (by simp [he])
    show dictGet (q :: (t ++ (k, v) :: b)) k = some v
    have hqk : (q.1 == k) = false := by simp [hq]
    rw [dictGet, List.find?_cons, hqk]
    exact ih ht

/- ### Lemmas about the classification and aggregation passes -/

theorem classifyLoop_qids_subset (split : String → List String) (msgs : List Message)
    (qids : List Int) :
    ∀ i ∈ (classifyLoop split msgs qids).2, i ∈ qids ∨ i ∈ msgs.map Message.id := by
  induction msgs generalizing qids with
  | nil => intro i hi; exact Or.inl hi
  | cons m rest ih =>
    intro i hi
    have hi2 : i ∈ (classifyLoop split rest
        (if questionFound (split (flatStr (pyFlatten m))) then
          qids ++ [(pyFlatten m).id] else qids)).2 := hi
    rcases ih _ i hi2 with h | h
    · by_cases hq : questionFound (split (flatStr (pyFlatten m))) = true
      · rw [if_pos hq] at h
        rcases List.mem_append.mp h with h2 | h2
        · exact Or.inl h2
        · have h3 : i = (pyFlatten m).id := List.mem_singleton.mp h2
          rw [h3, id_pyFlatten]
          exact Or.inr (by simp)
      · rw [if_neg hq] at h
        exact Or.inl h
    · exact Or.inr (by simp [h])

theorem answerUsers_skip (qids : List Int) (names : List (String × Option String))
    (l1 l2 : List Message) (m : Message)
    (hr : truthyReply m.reply_to_message_id = true)
    (hq : qids.contains (m.reply_to_message_id.getD 0) = false) :
    answerUsers qids names (l1 ++ m :: l2) = answerUsers qids names (l1 ++ l2) := by
  induction l1 with
  | nil =>
    show answerUsers qids names (m :: l2) = answerUsers qids names l2
    rw [answerUsers, hr, hq]
    rfl
  | cons x t ih =>
    show answerUsers qids names (x :: (t ++ m :: l2)) = answerUsers qids names (x :: (t ++ l2))
    rw [answerUsers, answerUsers, ih]

theorem talkUsers_reply_blind (names : List (String × Option String))
    (l1 l2 : List Message) (m : Message) (r : Option Int) :
    talkUsers names (l1 ++ { m with reply_to_message_id := r } :: l2)
      = talkUsers names (l1 ++ m :: l2) := by
  induction l1 with
  | nil => rfl
  | cons x t ih =>
    show talkUsers names (x :: (t ++ _ :: l2)) = talkUsers names (x :: (t ++ m :: l2))
    rw [talkUsers, talkUsers, ih]

theorem not_any_key {α β : Type} [BEq α] [LawfulBEq α] (d : List (α × β)) (k : α)
    (h : ¬ k ∈ d.map Prod.fst) : ¬ d.any (fun p => p.1 == k) = true := by
  intro hc
  rcases List.any_eq_true.mp hc with ⟨p, hp, hpk⟩
  exact h (List.mem_map.mpr ⟨p, hp, by simpa using hpk⟩)

/-- C1: for an empty transcript, both ranking operations raise
`UnboundLocalError` instead of returning an empty ranking: `top_users` is
assigned only inside the per-message loop, which never runs, and the final
comprehension then reads the unassigned local. The spec (Scenario 4) says
both rankings must yield `[]` without raising, so this is a defect of the
code, witnessed here by evaluating both embedded operations on the empty
transcript. -/
theorem c1_empty_transcript_raises :
    get_top_answering_users split0 [] 10 = Except.error "UnboundLocalError"
    ∧ get_most_talkative_users [] 10 = Except.error "UnboundLocalError" :=
  ⟨rfl, rfl⟩

/-- C2: a message that replies to a question but has no `from_id` key is not
silently skipped: `get_top_answering_users` indexes
`user_names[msg['from_id']]` with plain brackets, so the run aborts with
`KeyError`. The spec says unattributable answers are silently discarded
(and `get_most_talkative_users` indeed guards with `.get`), so this is a
defect of the code, witnessed by evaluating the embedded operation on a
two-message transcript: a question and an answer lacking `from_id`. -/
theorem c2_missing_sender_raises :
    get_top_answering_users split0 [qmsg, replyNoSender] 10 = Except.error "KeyError" :=
  rfl

/-- C3 counterexample: a message replying to a nonexistent id (`mDangle`,
reply_to 999) does NOT contribute to "neither ranking": it is counted by
the talkative ranking like any other message. With the dangling-reply
message present, sender `C` appears in the talkative ranking with count 1;
without it, `C` is absent — so the message did contribute to that
ranking, refuting the claim as stated. -/
theorem c3_counterexample :
    get_most_talkative_users [mA, mB, mDangle] 10
        = Except.ok [(some "A", 1), (some "B", 1), (some "C", 1)]
    ∧ get_most_talkative_users [mA, mB] 10
        = Except.ok [(some "A", 1), (some "B", 1)]
    ∧ get_most_talkative_users [mA, mB, mDangle] 10
        ≠ get_most_talkative_users [mA, mB] 10 :=
  ⟨rfl, rfl, fun h => absurd (Except.ok.inj h) (by decide)⟩

/-- C5 counterexample: classification is not pure with respect to the
message. Running `msg_has_question` on a message whose text payload is the
run list `["hi"]` replaces that payload in place by the rebuilt string
`" hi"`, so the message afterwards differs from the original. -/
theorem c5_counterexample :
    (msg_has_question split0 m0).2 ≠ m0
    ∧ (msg_has_question split0 m0).2.text = TextPayload.str " hi" :=
  ⟨by decide, rfl⟩

/-- C6 counterexample: the word-cloud corpus builder filters stopwords
itself. With the tokenizer that yields the whole text as one token and the
stopword set `{"foo"}`, a message reading "foo" contributes nothing: the
corpus is just the separator `"\n "` and the token "foo" does not appear
in it, refuting the claim that every non-dropped token, stopword or not,
reaches the corpus. -/
theorem c6_counterexample :
    buildCorpus split0 ["foo"] [stopMsg] = "\n "
    ∧ hasSub (buildCorpus split0 ["foo"] [stopMsg]) "foo" = false :=
  ⟨rfl, by decide⟩

/-- C9 counterexample: `rebuild_msg` does not return exactly the
space-joined pieces: the accumulator starts as the empty string and every
piece is appended after a space, so the single-run list `["hi"]` rebuilds
to `" hi"`, which carries a leading separator, not to `"hi"`. -/
theorem c9_counterexample :
    rebuild_msg [TextItem.str "hi"] = " hi"
    ∧ rebuild_msg [TextItem.str "hi"] ≠ "hi" :=
  ⟨rfl, by decide⟩

/-- C3 amended: a message `m` whose reply references an id carried by no
message of the transcript is skipped by the answer-aggregation pass
without raising — the pass (including the `is_question` lookup, a
`defaultdict` read that cannot fail) produces exactly the `users` list it
would produce were `m` not in the transcript at all, for every sender
directory — while the talkative pass treats `m` exactly like the same
message with no reply linkage, counting it normally. (The classification
ids are computed over the full transcript, `m` included, since `m` itself
may be a question other messages answer.) -/
theorem c3_amended_dangling_reply (split : String → List String)
    (names : List (String × Option String)) (pre post : List Message) (m : Message)
    (rid : Int) (h1 : m.reply_to_message_id = some rid) (h2 : ¬ rid = 0)
    (h3 : ∀ m2 ∈ pre ++ m :: post, ¬ m2.id = rid) :
    answerUsers (classifyLoop split (pre ++ m :: post) []).2 names
        ((pre ++ m :: post).map pyFlatten)
      = answerUsers (classifyLoop split (pre ++ m :: post) []).2 names
        (pre.map pyFlatten ++ post.map pyFlatten)
    ∧ talkUsers names (pre ++ m :: post)
      = talkUsers names (pre ++ { m with reply_to_message_id := none } :: post) := by
  constructor
  · rw [List.map_append, List.map_cons]
    apply answerUsers_skip
    · rw [reply_pyFlatten, h1]
      simpa [truthyReply] using h2
    · rw [reply_pyFlatten, h1]
      have hnot : ¬ rid ∈ (classifyLoop split (pre ++ m :: post) []).2 := by
        intro hin
        rcases classifyLoop_qids_subset split (pre ++ m :: post) [] rid hin with h | h
        · simp at h
        · rcases List.mem_map.mp h with ⟨m2, hm2, hid⟩
          exact h3 m2 hm2 hid
      simpa using hnot
  · exact (talkUsers_reply_blind names pre post m none).symm

theorem c3_amended_dangling_reply_witness :
    mDangle.reply_to_message_id = some 999
    ∧ ¬ (999 : Int) = 0
    ∧ (∀ m2 ∈ [mA] ++ mDangle :: [mB], ¬ m2.id = 999)
    ∧ (answerUsers (classifyLoop split0 ([mA] ++ mDangle :: [mB]) []).2
          [("u1", some "A")] (([mA] ++ mDangle :: [mB]).map pyFlatten)
        = answerUsers (classifyLoop split0 ([mA] ++ mDangle :: [mB]) []).2
          [("u1", some "A")] ([mA].map pyFlatten ++ [mB].map pyFlatten)
      ∧ talkUsers [("u1", some "A")] ([mA] ++ mDangle :: [mB])
        = talkUsers [("u1", some "A")]
          ([mA] ++ { mDangle with reply_to_message_id := none } :: [mB])) :=
  ⟨rfl, by decide, by decide,
    c3_amended_dangling_reply split0 [("u1", some "A")] [mA] [mB] mDangle 999
      rfl (by decide) (by decide)⟩

/-- C4: `msg_has_question` answers true exactly when at least one sentence
of the message's extracted flat text contains one of the four fixed
markers (`?`, the Arabic/Persian question mark, or the two Persian
interrogative words), for every sentence splitter; when the splitter
yields no sentences it answers false (the loop falls through without
touching any sentence, so nothing can raise). -/
theorem c4_question_iff_marker_sentence (split : String → List String) (m : Message) :
    ((msg_has_question split m).1 = true ↔
        ∃ s ∈ split (flatStr m), isQSentence s = true)
    ∧ (split (flatStr m) = [] → (msg_has_question split m).1 = false) := by
  have h : (msg_has_question split m).1 = questionFound (split (flatStr m)) := by
    show questionFound (split (flatStr (pyFlatten m))) = _
    rw [flatStr_pyFlatten]
  refine ⟨?_, ?_⟩
  · rw [h]; exact questionFound_iff _
  · intro he; rw [h, he]; rfl

theorem c4_question_iff_marker_sentence_witness :
    (msg_has_question (fun _ => ([] : List String)) qmsg).1 = false :=
  (c4_question_iff_marker_sentence (fun _ => ([] : List String)) qmsg).2 rfl

/-- C5 amended: classification leaves a message unchanged exactly when its
text payload is already a plain string; a run-sequence payload is replaced
in place by the rebuilt flat string, both in `msg_has_question` and in the
classification pass of `get_top_answering_users` (which maps every message
through the same mutation). -/
theorem c5_amended_classification_mutates (split : String → List String)
    (m : Message) (msgs : List Message) :
    ((msg_has_question split m).2 = m ↔ ∃ s, m.text = TextPayload.str s)
    ∧ (classifyLoop split msgs []).1 = msgs.map pyFlatten := by
  refine ⟨?_, classifyLoop_fst split msgs []⟩
  show pyFlatten m = m ↔ _
  cases m with
  | mk i f fn r t =>
    cases t with
    | str s => simp [pyFlatten]
    | list items => simp [pyFlatten]

/-- Auxiliary: folding string append from an accumulator. -/
theorem foldl_append_strings (l : List String) (acc : String) :
    l.foldl (fun a s => a ++ s) acc = acc ++ l.foldl (fun a s => a ++ s) "" := by
  induction l generalizing acc with
  | nil => simp [String.append_empty]
  | cons s rest ih =>
    rw [List.foldl_cons, List.foldl_cons, ih (acc ++ s), ih ("" ++ s),
      String.empty_append, String.append_assoc]

theorem join_cons_string (s : String) (l : List String) :
    String.join (s :: l) = s ++ String.join l := by
  show List.foldl _ ("" ++ s) l = _
  rw [String.empty_append, String.join, foldl_append_strings l s]

/-- Auxiliary: the `rebuild_msg` fold against its closed join form. -/
theorem rebuild_msg_eq_join (items : List TextItem) (acc : String) :
    items.foldl (fun res it =>
      match it with
      | TextItem.str s => res ++ " " ++ s
      | TextItem.span _ t => res ++ " " ++ t) acc
    = acc ++ String.join (items.map (fun it => " " ++ itemText it)) := by
  induction items generalizing acc with
  | nil => simp [String.join, String.append_empty]
  | cons it rest ih =>
    have hbody : (match it with
        | TextItem.str s => acc ++ " " ++ s
        | TextItem.span _ t => acc ++ " " ++ t) = acc ++ (" " ++ itemText it) := by
      cases it <;> simp [itemText, String.append_assoc]
    show List.foldl _ (match it with
        | TextItem.str s => acc ++ " " ++ s
        | TextItem.span _ t => acc ++ " " ++ t) rest = _
    rw [hbody, ih, List.map_cons, join_cons_string, String.append_assoc]

/-- C9 amended: `rebuild_msg` iterates the runs in order and appends the
text of plain-string runs and of every annotated span regardless of kind
(it has no drop set); the pieces are joined by single spaces in run order,
but the fold starts from the empty string, so the result is the
concatenation of `" " ++ piece` over all runs: every piece is preceded by
exactly one space, including the first, and an empty run list yields the
empty string. -/
theorem c9_amended_rebuild_leading_space (items : List TextItem) :
    rebuild_msg items = String.join (items.map (fun it => " " ++ itemText it)) := by
  show items.foldl _ "" = _
  rw [rebuild_msg_eq_join items "", String.empty_append]

/-- Six messages: three from `u1` (named "X"), two from `u2` (named "Y"),
one from `u3` (also named "X"). -/
def msgs7 : List Message :=
  [⟨1, some "u1", some "X", none, TextPayload.str "a"⟩,
   ⟨2, some "u1", some "X", none, TextPayload.str "b"⟩,
   ⟨3, some "u1", some "X", none, TextPayload.str "c"⟩,
   ⟨4, some "u2", some "Y", none, TextPayload.str "d"⟩,
   ⟨5, some "u2", some "Y", none, TextPayload.str "e"⟩,
   ⟨6, some "u3", some "X", none, TextPayload.str "f"⟩]

/-- C7 counterexample: with two sender ids sharing the display name "X"
(counts 3 and 1) and one id named "Y" (count 2), the returned dictionary
of the talkative ranking is [("X", 1), ("Y", 2)]: its counts are NOT
non-increasing, and although n = 10 exceeds the three resolvable id-level
entries it does not return all of them — so the claim as stated fails on
the code once display names collide. -/
theorem c7_counterexample :
    get_most_talkative_users msgs7 10 = Except.ok [(some "X", 1), (some "Y", 2)]
    ∧ ¬ ([(some "X", 1), (some "Y", 2)] : List (Option String × Nat)).Pairwise
        (fun a b => b.2 ≤ a.2)
    ∧ (counterItems (talkUsers (id_and_name msgs7) msgs7)).length = 3 :=
  ⟨rfl, by decide, rfl⟩

/-- The id-level ranking keeps ties in first-occurrence order: the entries
of `most_common` holding one fixed count `c` form a sublist of the
insertion-ordered `Counter` items holding count `c`, and the two lists
agree exactly when `n` covers the whole Counter. -/
theorem most_common_ties_stable (users : List String) (n : Int) (c : Nat) :
    List.Sublist ((most_common (counterItems users) n).filter (fun p => p.2 == c))
      ((counterItems users).filter (fun p => p.2 == c))
    ∧ ((counterItems users).length ≤ n.toNat →
        (most_common (counterItems users) n).filter (fun p => p.2 == c)
          = (counterItems users).filter (fun p => p.2 == c)) := by
  constructor
  · have h1 : List.Sublist (most_common (counterItems users) n)
        (sortDesc (counterItems users)) := List.take_sublist _ _
    have h2 := List.Sublist.filter (fun p => p.2 == c) h1
    rw [sortDesc_filter] at h2
    exact h2
  · intro hl
    have hlen : (sortDesc (counterItems users)).length = (counterItems users).length :=
      (sortDesc_perm _).length_eq
    rw [most_common, List.take_of_length_le (by rw [hlen]; exact hl), sortDesc_filter]

/-- When every counted id resolves in the directory and distinct ids carry
distinct directory entries, the final display-name dictionary of the
ranking stage merges nothing: it is exactly the name-resolved id-level
ranking. -/
theorem fTopUsers_inj_eq (users : List String) (n : Int)
    (names : List (String × Option String))
    (h1 : ∀ u ∈ users, (dictGet names u).isSome = true)
    (h2 : ∀ u ∈ users, ∀ v ∈ users, dictGet names u = dictGet names v → u = v) :
    fTopUsers names (most_common (counterItems users) n)
      = Except.ok ((most_common (counterItems users) n).map
          (fun p => ((dictGet names p.1).getD none, p.2))) := by
  have hmemItems : ∀ p ∈ counterItems users, p.1 ∈ users := by
    intro p hp
    have hm : p.1 ∈ (counterItems users).map Prod.fst := List.mem_map.mpr ⟨p, hp, rfl⟩
    rcases counterFold_keys_subset users [] p.1 hm with h | h
    · simp at h
    · exact h
  have hmemRanked : ∀ p ∈ most_common (counterItems users) n, p.1 ∈ users := by
    intro p hp
    have hp2 : p ∈ sortDesc (counterItems users) := List.take_subset _ _ hp
    exact hmemItems p ((sortDesc_perm (counterItems users)).mem_iff.mp hp2)
  have hres := resolveNames_ok names (most_common (counterItems users) n)
    (fun p hp => h1 p.1 (hmemRanked p hp))
  have hkeysItems : ((counterItems users).map Prod.fst).Nodup :=
    counterFold_keys_nodup users [] (by simp)
  have hkeysSorted : ((sortDesc (counterItems users)).map Prod.fst).Nodup :=
    ((sortDesc_perm (counterItems users)).map Prod.fst).nodup_iff.mpr hkeysItems
  have hkeysRanked : ((most_common (counterItems users) n).map Prod.fst).Nodup := by
    rw [most_common, List.map_take]
    exact hkeysSorted.sublist (List.take_sublist _ _)
  have hrankedNodup : (most_common (counterItems users) n).Nodup :=
    hkeysRanked.of_map Prod.fst
  have houtKeys : (((most_common (counterItems users) n).map
      (fun p => ((dictGet names p.1).getD none, p.2))).map Prod.fst).Nodup := by
    rw [List.map_map]
    refine List.Nodup.map_on ?_ hrankedNodup
    intro x hx y hy hxy
    have hxu : x.1 ∈ users := hmemRanked x hx
    have hyu : y.1 ∈ users := hmemRanked y hy
    obtain ⟨a, hax⟩ := Option.isSome_iff_exists.mp (h1 x.1 hxu)
    obtain ⟨b, hby⟩ := Option.isSome_iff_exists.mp (h1 y.1 hyu)
    have hg : (dictGet names x.1).getD none = (dictGet names y.1).getD none := by
      simpa [Function.comp] using hxy
    have hdg : dictGet names x.1 = dictGet names y.1 := by
      rw [hax, hby] at hg ⊢
      simp at hg
      rw [hg]
    exact List.inj_on_of_nodup_map hkeysRanked hx hy (h2 x.1 hxu y.1 hyu hdg)
  rw [fTopUsers, hres]
  show Except.ok (pyDict _) = _
  rw [pyDict_nodup _ houtKeys]

/-- C7 amended: the ranking stage shared by both operations — `Counter`
over the users list, `most_common(n)`, then the display-name dictionary —
returns, provided every counted id resolves in the directory and distinct
ids carry distinct directory entries, a sequence of (display_name, count)
pairs whose counts are non-increasing and whose length is at most `n`
(`n ≤ 0` yields the empty result), and an `n` at least the number of
id-level entries returns all of them, without error. (Without the
distinct-names proviso the claim fails: see the C10 merge and the
counterexample above.) -/
theorem c7_amended_ranking_shape (users : List String) (n : Int)
    (names : List (String × Option String))
    (h1 : ∀ u ∈ users, (dictGet names u).isSome = true)
    (h2 : ∀ u ∈ users, ∀ v ∈ users, dictGet names u = dictGet names v → u = v) :
    ∃ out, fTopUsers names (most_common (counterItems users) n) = Except.ok out
      ∧ out.Pairwise (fun a b => b.2 ≤ a.2)
      ∧ out.length ≤ n.toNat
      ∧ (n ≤ 0 → out = [])
      ∧ ((counterItems users).length ≤ n.toNat → out.length = (counterItems users).length) := by
  refine ⟨(most_common (counterItems users) n).map
      (fun p => ((dictGet names p.1).getD none, p.2)),
    fTopUsers_inj_eq users n names h1 h2, ?_, ?_, ?_, ?_⟩
  · have hsorted : (most_common (counterItems users) n).Pairwise (fun a b => b.2 ≤ a.2) :=
      (sortDesc_pairwise (counterItems users)).sublist (List.take_sublist _ _)
    exact hsorted.map _ (fun a b hab => hab)
  · rw [List.length_map, most_common, List.length_take]
    exact min_le_left _ _
  · intro hn
    rw [most_common, Int.toNat_eq_zero.mpr hn, List.take_zero, List.map_nil]
  · intro hlen
    have hslen : (sortDesc (counterItems users)).length = (counterItems users).length :=
      (sortDesc_perm (counterItems users)).length_eq
    rw [List.length_map, most_common, List.take_of_length_le (by rw [hslen]; exact hlen),
      hslen]

theorem c7_amended_ranking_shape_witness :
    (∀ u ∈ ["u1", "u1", "u2"],
        (dictGet [("u1", some "A"), ("u2", some "B")] u).isSome = true)
    ∧ (∀ u ∈ ["u1", "u1", "u2"], ∀ v ∈ ["u1", "u1", "u2"],
        dictGet [("u1", some "A"), ("u2", some "B")] u
          = dictGet [("u1", some "A"), ("u2", some "B")] v → u = v)
    ∧ (∃ out, fTopUsers [("u1", some "A"), ("u2", some "B")]
          (most_common (counterItems ["u1", "u1", "u2"]) 5) = Except.ok out
        ∧ out.Pairwise (fun a b => b.2 ≤ a.2)
        ∧ out.length ≤ (5 : Int).toNat
        ∧ ((5 : Int) ≤ 0 → out = [])
        ∧ ((counterItems ["u1", "u1", "u2"]).length ≤ (5 : Int).toNat →
            out.length = (counterItems ["u1", "u1", "u2"]).length)) :=
  ⟨by decide, by decide,
    c7_amended_ranking_shape ["u1", "u1", "u2"] 5 [("u1", some "A"), ("u2", some "B")]
      (by decide) (by decide)⟩

/-- Seven messages: three from `u1` (named "X"), two from `u2` (named "Y"),
two from `u3` (also named "X"); `u2` is first seen before `u3`. -/
def msgs8 : List Message :=
  [⟨1, some "u1", some "X", none, TextPayload.str "a"⟩,
   ⟨2, some "u1", some "X", none, TextPayload.str "b"⟩,
   ⟨3, some "u1", some "X", none, TextPayload.str "c"⟩,
   ⟨4, some "u2", some "Y", none, TextPayload.str "d"⟩,
   ⟨5, some "u2", some "Y", none, TextPayload.str "e"⟩,
   ⟨6, some "u3", some "X", none, TextPayload.str "f"⟩,
   ⟨7, some "u3", some "X", none, TextPayload.str "g"⟩]

/-- C8 counterexample: in the returned talkative dictionary for `msgs8`,
entries with equal counts do NOT appear in first-occurrence order of their
sender id. The id-level ranking orders the count-2 ties as `u2` before
`u3` (first-occurrence order), but the returned dictionary is
[("X", 2), ("Y", 2)]: the "X" entry holds `u3`'s count 2 (the name
collision with `u1` overwrote the earlier count, cf. C10), and this
`u3`-fed tie sits in front of `u2`'s entry ("Y", 2), although `u2` occurs
first in the counting pass — refuting the claim as stated for the
dictionaries the ranking operations return. -/
theorem c8_counterexample :
    get_most_talkative_users msgs8 10 = Except.ok [(some "X", 2), (some "Y", 2)]
    ∧ most_common (counterItems (talkUsers (id_and_name msgs8) msgs8)) 10
        = [("u1", 3), ("u2", 2), ("u3", 2)]
    ∧ dictGet (id_and_name msgs8) "u2" = some (some "Y")
    ∧ dictGet (id_and_name msgs8) "u3" = some (some "X") :=
  ⟨rfl, rfl, rfl, rfl⟩

/-- C8 amended: in both rankings, entries with equal counts appear in
first-occurrence order of their sender id in the counting pass, provided
every counted id resolves in the directory and distinct ids carry
distinct display names (without that proviso the name merge shown in the
counterexample can put a later id's tied count ahead). Under the proviso,
the returned dictionary's entries holding one fixed count `c` form a
sublist of the name-resolved insertion-ordered `Counter` items holding
count `c` — ties retained by the cut keep exactly that order, not an
alphabetical one — and the two lists agree whenever `n` covers the whole
Counter. -/
theorem c8_amended_ties_first_occurrence (users : List String) (n : Int) (c : Nat)
    (names : List (String × Option String))
    (h1 : ∀ u ∈ users, (dictGet names u).isSome = true)
    (h2 : ∀ u ∈ users, ∀ v ∈ users, dictGet names u = dictGet names v → u = v) :
    ∃ out, fTopUsers names (most_common (counterItems users) n) = Except.ok out
      ∧ List.Sublist (out.filter (fun p => p.2 == c))
          (((counterItems users).filter (fun p => p.2 == c)).map
            (fun p => ((dictGet names p.1).getD none, p.2)))
      ∧ ((counterItems users).length ≤ n.toNat →
          out.filter (fun p => p.2 == c)
            = ((counterItems users).filter (fun p => p.2 == c)).map
                (fun p => ((dictGet names p.1).getD none, p.2))) := by
  refine ⟨(most_common (counterItems users) n).map
      (fun p => ((dictGet names p.1).getD none, p.2)),
    fTopUsers_inj_eq users n names h1 h2, ?_, ?_⟩
  · rw [List.filter_map]
    show List.Sublist (((most_common (counterItems users) n).filter
        (fun p => p.2 == c)).map (fun p => ((dictGet names p.1).getD none, p.2))) _
    exact (most_common_ties_stable users n c).1.map _
  · intro hlen
    rw [List.filter_map]
    show (((most_common (counterItems users) n).filter
        (fun p => p.2 == c)).map (fun p => ((dictGet names p.1).getD none, p.2))) = _
    rw [(most_common_ties_stable users n c).2 hlen]

theorem c8_amended_ties_first_occurrence_witness :
    (∀ u ∈ ["v1", "v2", "v2"],
        (dictGet [("v1", some "N"), ("v2", some "M")] u).isSome = true)
    ∧ (∀ u ∈ ["v1", "v2", "v2"], ∀ v ∈ ["v1", "v2", "v2"],
        dictGet [("v1", some "N"), ("v2", some "M")] u
          = dictGet [("v1", some "N"), ("v2", some "M")] v → u = v)
    ∧ (∃ out, fTopUsers [("v1", some "N"), ("v2", some "M")]
          (most_common (counterItems ["v1", "v2", "v2"]) 4) = Except.ok out
        ∧ List.Sublist (out.filter (fun p => p.2 == 1))
            (((counterItems ["v1", "v2", "v2"]).filter (fun p => p.2 == 1)).map
              (fun p => ((dictGet [("v1", some "N"), ("v2", some "M")] p.1).getD none, p.2)))
        ∧ ((counterItems ["v1", "v2", "v2"]).length ≤ (4 : Int).toNat →
            out.filter (fun p => p.2 == 1)
              = ((counterItems ["v1", "v2", "v2"]).filter (fun p => p.2 == 1)).map
                  (fun p => ((dictGet [("v1", some "N"), ("v2", some "M")] p.1).getD none,
                    p.2)))) :=
  ⟨by decide, by decide,
    c8_amended_ties_first_occurrence ["v1", "v2", "v2"] 4 1
      [("v1", some "N"), ("v2", some "M")] (by decide) (by decide)⟩

/-- Auxiliary: a token filter against the empty stopword list is the
identity. -/
theorem corpusPiece_nil_stop (tok : String → List String) (stop : List String)
    (s : String) :
    corpusPiece (fun u => (tok u).filter (fun t => !(stop.contains t))) [] s
      = corpusPiece tok stop s := by
  show "\n " ++ String.intercalate " "
      (((tok s).filter (fun t => !(stop.contains t))).filter
        (fun t => !(([] : List String).contains t))) = _
  simp [corpusPiece, List.contains]

/-- C6 amended: the corpus builder filters stopwords by itself, token by
token: building the corpus with stopword set `stop` is the same as
building it with no stopword set over token streams from which the
stopwords were already removed. (No stopword set reaches the renderer:
the `WordCloud` call in the source passes no `stopwords` argument.) -/
theorem c6_amended_builder_filters_stopwords (tok : String → List String)
    (stop : List String) (msgs : List Message) :
    buildCorpus tok stop msgs
      = buildCorpus (fun s => (tok s).filter (fun t => !(stop.contains t))) [] msgs := by
  show msgs.foldl _ "" = msgs.foldl _ ""
  congr 1
  funext acc m
  cases m with
  | mk i f fn r t =>
    cases t with
    | str s =>
      show acc ++ corpusPiece tok stop s
        = acc ++ corpusPiece (fun u => (tok u).filter (fun t => !(stop.contains t))) [] s
      rw [corpusPiece_nil_stop]
    | list items =>
      show items.foldl _ acc = items.foldl _ acc
      congr 1
      funext acc2 it
      cases it with
      | str s =>
        show acc2 ++ corpusPiece tok stop s
          = acc2 ++ corpusPiece (fun u => (tok u).filter (fun t => !(stop.contains t))) [] s
        rw [corpusPiece_nil_stop]
      | span ty t =>
        show (if wcDropTypes.contains ty = true then acc2 else acc2 ++ corpusPiece tok stop t)
          = (if wcDropTypes.contains ty = true then acc2
              else acc2 ++ corpusPiece (fun u => (tok u).filter (fun t2 => !(stop.contains t2))) [] t)
        rw [corpusPiece_nil_stop]

/-- C10: semantics of the final display-name dictionary (the
`\x7buser_names[k]: v for k, v in top_users.items()\x7d` comprehension both
ranking functions return, embedded as `pyDict` over the name-resolved
ranking). If the resolved ranking reads
`l1 ++ (nm, c1) :: l2 ++ (nm, c2) :: l3` — two ranked ids sharing the
display name `nm`, every other name distinct — then the returned
dictionary keeps a single entry for `nm`, in the position of the earlier
occurrence but holding the count `c2` of the id ranked later; the earlier
id's count `c1` is lost and the dictionary has one entry fewer than the
id-level ranking. -/
theorem c10_duplicate_names_merge (l1 l2 l3 : List (Option String × Nat))
    (nm : Option String) (c1 c2 : Nat)
    (h1 : ((l1 ++ l2 ++ l3).map Prod.fst).Nodup)
    (h2 : ¬ nm ∈ (l1 ++ l2 ++ l3).map Prod.fst) :
    pyDict (l1 ++ (nm, c1) :: (l2 ++ (nm, c2) :: l3)) = l1 ++ (nm, c2) :: (l2 ++ l3)
    ∧ dictGet (pyDict (l1 ++ (nm, c1) :: (l2 ++ (nm, c2) :: l3))) nm = some c2
    ∧ (pyDict (l1 ++ (nm, c1) :: (l2 ++ (nm, c2) :: l3))).length + 1
        = (l1 ++ (nm, c1) :: (l2 ++ (nm, c2) :: l3)).length := by
  simp only [List.map_append, List.mem_append, not_or] at h2
  obtain ⟨⟨ha1, ha2⟩, ha3⟩ := h2
  rw [List.map_append, List.map_append, List.nodup_append] at h1
  obtain ⟨h12, h3n, hd123⟩ := h1
  rw [List.nodup_append] at h12
  obtain ⟨h1n, h2n, hd12⟩ := h12
  have hmain : pyDict (l1 ++ (nm, c1) :: (l2 ++ (nm, c2) :: l3))
      = l1 ++ (nm, c2) :: (l2 ++ l3) := by
    rw [pyDict, List.foldl_append, List.foldl_cons, List.foldl_append, List.foldl_cons]
    rw [pyDictFold_fresh l1 [] (by simpa using h1n), List.nil_append]
    rw [dictInsert_fresh l1 nm c1 (not_any_key l1 nm ha1)]
    have hB : (((l1 ++ [(nm, c1)]) ++ l2).map Prod.fst).Nodup := by
      rw [List.map_append, List.map_append, List.nodup_append, List.nodup_append]
      refine ⟨⟨h1n, by simp, ?_⟩, h2n, ?_⟩
      · intro a hal hanm
        simp at hanm
        exact ha1 (hanm ▸ hal)
      · intro a ha hal2
        rcases List.mem_append.mp ha with h | h
        · exact hd12 h hal2
        · simp at h
          exact ha2 (h ▸ hal2)
    rw [pyDictFold_fresh l2 (l1 ++ [(nm, c1)]) hB]
    rw [List.append_assoc, List.singleton_append]
    rw [dictInsert_overwrite l1 l2 nm c1 c2 ha1 ha2]
    have hC : (((l1 ++ (nm, c2) :: l2) ++ l3).map Prod.fst).Nodup := by
      rw [List.map_append, List.map_append, List.map_cons, List.nodup_append]
      refine ⟨?_, h3n, ?_⟩
      · rw [List.nodup_append]
        refine ⟨h1n, ?_, ?_⟩
        · rw [List.nodup_cons]
          exact ⟨ha2, h2n⟩
        · intro a hal hacons
          rcases List.mem_cons.mp hacons with h | h
          · exact ha1 ((show a = nm from h) ▸ hal)
          · exact hd12 hal h
      · intro a ha hal3
        rcases List.mem_append.mp ha with h | h
        · exact hd123 (List.mem_append.mpr (Or.inl h)) hal3
        · rcases List.mem_cons.mp h with h | h
          · exact ha3 ((show a = nm from h) ▸ hal3)
          · exact hd123 (List.mem_append.mpr (Or.inr h)) hal3
    rw [pyDictFold_fresh l3 (l1 ++ (nm, c2) :: l2) hC]
    rw [List.append_assoc, List.cons_append]
  refine ⟨hmain, ?_, ?_⟩
  · rw [hmain]
    exact dictGet_mid l1 (l2 ++ l3) nm c2 ha1
  · rw [hmain]
    simp [List.length_append]
    omega

theorem c10_duplicate_names_merge_witness :
    ((([(some "X", 9)] ++ [] ++ []).map Prod.fst).Nodup
      ∧ ¬ (some "A") ∈ ([(some "X", 9)] ++ [] ++ []).map Prod.fst)
    ∧ (pyDict ([(some "X", 9)] ++ (some "A", 2) :: ([] ++ (some "A", 1) :: []))
          = [(some "X", 9)] ++ (some "A", 1) :: ([] ++ [])
      ∧ dictGet (pyDict ([(some "X", 9)] ++ (some "A", 2) :: ([] ++ (some "A", 1) :: [])))
          (some "A") = some 1
      ∧ (pyDict ([(some "X", 9)] ++ (some "A", 2) :: ([] ++ (some "A", 1) :: []))).length + 1
          = ([(some "X", 9)] ++ (some "A", 2) :: ([] ++ (some "A", 1) :: [])).length) :=
  ⟨⟨by decide, by decide⟩,
    c10_duplicate_names_merge [(some "X", 9)] [] [] (some "A") 2 1 (by decide) (by decide)⟩

end ChatStats
